import Mathlib

/-!
Verification of the IRCv3 draft/named-modes module (src/4.0/m_ircv3_namedmodes.cpp).

Strings are modelled as lists of characters.  Each definition below embeds the
C++ function of the same name; external collaborators (the mode registry, the
channel store, the capability subsystem) are modelled as explicit arguments.
-/

namespace NamedModes

abbrev Str := List Char

/-- Entity type of a mode: MODETYPE_CHANNEL or MODETYPE_USER. -/
inductive ModeType where
  | channel
  | user
deriving DecidableEq, Repr

/-- Models the constant DEFAULT_VENDOR_PREFIX from the source. -/
def defaultVendor : Str := "inspired.chats.supply/".data

/-- Models INSP2IRCV3_CHMODES: pairs of (inspircd_name, ircv3_name). -/
def INSP2IRCV3_CHMODES : List (Str × Str) := [
  ("ban".data, "ban".data),
  ("inviteonly".data, "inviteonly".data),
  ("key".data, "key".data),
  ("limit".data, "limit".data),
  ("moderated".data, "moderated".data),
  ("noextmsg".data, "noextmsg".data),
  ("op".data, "op".data),
  ("private".data, "private".data),
  ("secret".data, "secret".data),
  ("topiclock".data, "topiclock".data),
  ("voice".data, "voice".data),
  ("banexception".data, "banex".data),
  ("noctcp".data, "noctcp".data),
  ("invex".data, "invex".data),
  ("permanent".data, "permanent".data),
  ("c_registered".data, "regonly".data),
  ("sslonly".data, "secureonly".data),
  ("admin".data, "admin".data),
  ("founder".data, "owner".data),
  ("halfop".data, "halfop".data)]

/-- Models INSP2IRCV3_UMODES: pairs of (inspircd_name, ircv3_name). -/
def INSP2IRCV3_UMODES : List (Str × Str) := [
  ("invisible".data, "invisible".data),
  ("oper".data, "oper".data),
  ("snomask".data, "snomask".data),
  ("wallops".data, "wallops".data),
  ("bot".data, "bot".data),
  ("hidechans".data, "hidechans".data),
  ("cloak".data, "cloak".data)]

/-- The per-entity-type translation table selected in both translators. -/
def table (mt : ModeType) : List (Str × Str) :=
  match mt with
  | .channel => INSP2IRCV3_CHMODES
  | .user => INSP2IRCV3_UMODES

/-- Models std::replace(s.begin, s.end, from, to) applied pointwise. -/
def replChar (src dst c : Char) : Char := if c = src then dst else c

/-- Models insp_to_ircv3: table lookup by internal name, else vendored
fallback (prepend the vendor string, replace underscores by dashes). -/
def insp_to_ircv3 (mt : ModeType) (name : Str) : Str :=
  match (table mt).find? (fun p => p.1 == name) with
  | some p => p.2
  | none => defaultVendor ++ name.map (replChar '_' '-')

/-- Helper for rfind: scans candidate positions downward from i, returning the
largest position at which the needle occurs. -/
def rfindAux (s needle : Str) : Nat → Option Nat
  | 0 => if needle.isPrefixOf s then some 0 else none
  | i + 1 => if needle.isPrefixOf (s.drop (i + 1)) then some (i + 1) else rfindAux s needle i

/-- Models std::string::rfind(needle): position of the last occurrence. -/
def rfind (s needle : Str) : Option Nat := rfindAux s needle s.length

/-- Models ircv3_to_insp: table lookup by wire name, else if the name starts
with (and its last occurrence of) the vendor string is at position 0, strip it
and replace dashes by underscores; else no translation. -/
def ircv3_to_insp (mt : ModeType) (name : Str) : Option Str :=
  match (table mt).find? (fun p => p.2 == name) with
  | some p => some p.1
  | none =>
    if rfind name defaultVendor = some 0 then
      some ((name.drop defaultVendor.length).map (replChar '-' '_'))
    else none

/-- Models a ModeHandler as this module observes one: internal name, mode
letter, entity type, NeedsParam for each polarity, the IsListMode /
IsPrefixMode-with-nonzero-prefix / IsParameterMode runtime kind checks, and
IsParameterSecret. -/
structure ModeHandlerM where
  name : Str
  letter : Char
  mtype : ModeType
  needsParamSet : Bool
  needsParamUnset : Bool
  isListModeB : Bool
  hasPrefixChar : Bool
  isParamModeB : Bool
  paramSecret : Bool
deriving DecidableEq, Repr

/-- Models mh->NeedsParam(plus). -/
def needsParam (mh : ModeHandlerM) (plus : Bool) : Bool :=
  if plus then mh.needsParamSet else mh.needsParamUnset

/-- The external mode registry, modelled as the list of registered handlers. -/
abbrev Registry := List ModeHandlerM

/-- Models ServerInstance->Modes.FindMode(name, mt). -/
def FindMode (reg : Registry) (name : Str) (mt : ModeType) : Option ModeHandlerM :=
  reg.find? (fun mh => mh.name == name && mh.mtype == mt)

/-- Models ServerInstance->Modes.GetModes(mt): handlers of one entity type. -/
def GetModes (reg : Registry) (mt : ModeType) : Registry :=
  reg.filter (fun mh => mh.mtype == mt)

/-- Models a ListModeBase entry: mask, setter, set-time. -/
structure ListItemM where
  mask : Str
  setter : Str
  time : Nat
deriving DecidableEq, Repr

/-- Models the slice of a Channel this module reads: its name, the set modes
with their parameters (keyed by internal mode name), and the stored list-mode
entries (keyed by internal mode name). -/
structure ChannelM where
  cname : Str
  setModes : List (Str × Str)
  listData : List (Str × List ListItemM)
deriving DecidableEq, Repr

/-- Models channel->IsModeSet(mh). -/
def IsModeSet (ch : ChannelM) (mh : ModeHandlerM) : Bool :=
  (ch.setModes.find? (fun p => p.1 == mh.name)).isSome

/-- Models channel->GetModeParameter(mh). -/
def GetModeParameter (ch : ChannelM) (mh : ModeHandlerM) : Str :=
  ((ch.setModes.find? (fun p => p.1 == mh.name)).map Prod.snd).getD []

/-- Models listmode->GetList(channel); none when no entries are stored. -/
def GetList (ch : ChannelM) (name : Str) : Option (List ListItemM) :=
  (ch.listData.find? (fun p => p.1 == name)).map Prod.snd

/-- One reply written to the requesting client: a plain numeric, a structured
FAIL reply (IRCv3::Replies::Fail::Send), the RPL_PROPLIST token sequence of a
full dump, or one RPL_LISTPROPLIST line. -/
inductive ReplyM where
  | numeric (num : Nat) (args : List Str)
  | failRep (code descr : Str)
  | propDump (tokens : List Str)
  | listItem (chanName modeName mask setter : Str) (time : Nat)
deriving DecidableEq, Repr

/-- Whether a reply is a structured error reply (a FAIL message). -/
def isFail : ReplyM → Bool
  | .failRep _ _ => true
  | _ => false

/-- Number of structured error replies in a reply list. -/
def countFails (reps : List ReplyM) : Nat := (reps.filter isFail).length

/-- Token sequence that DisplayModeList adds for one registered channel mode:
nothing if unset; else the wire name, followed for parameter modes by the
parameter value, or by the internal name in angle brackets when the parameter
is secret and the requester is neither a member nor has channels/auspex. -/
def displayTokensFor (ch : ChannelM) (member auspex : Bool) (mh : ModeHandlerM) : List Str :=
  if IsModeSet ch mh then
    insp_to_ircv3 .channel mh.name ::
      (if mh.isParamModeB then
        [if mh.paramSecret && !member && !auspex then '<' :: (mh.name ++ (">".data))
         else GetModeParameter ch mh]
       else [])
  else []

/-- The token list of the full dump (the RPL_PROPLIST numeric payload). -/
def dumpTokens (reg : Registry) (ch : ChannelM) (member auspex : Bool) : List Str :=
  (GetModes reg .channel).flatMap (displayTokensFor ch member auspex)

/-- Models DisplayModeList: the RPL_PROPLIST tokens then RPL_ENDOFPROPLIST. -/
def DisplayModeList (reg : Registry) (ch : ChannelM) (member auspex : Bool) : List ReplyM :=
  [ReplyM.propDump (dumpTokens reg ch member auspex),
   ReplyM.numeric 960 [ch.cname, "End of mode list".data]]

/-- One entry pushed onto a Modes::ChangeList: handler, polarity, parameter. -/
structure ChangeM where
  mh : ModeHandlerM
  adding : Bool
  param : Str
deriving DecidableEq, Repr

/-- Position of the first '=' in a token (std::string::find). -/
def findEqPos (s : Str) : Option Nat := s.findIdx? (fun c => c == '=')

/-- Models CommandProp::ChangeMode: validates one signed token (with its
leading sign already stripped) and either produces the ChangeList entry it
pushes or the structured error it sends. -/
def ChangeMode (reg : Registry) (mt : ModeType) (prop : Str) (plus : Bool) :
    Except ReplyM ChangeM :=
  let sep := findEqPos prop
  let ircv3Name := prop.take (sep.getD prop.length)
  match ircv3_to_insp mt ircv3Name with
  | none => .error (.failRep ("UNKNOWN_MODE".data) (ircv3Name ++ (" is not a valid mode name".data)))
  | some inspName =>
    match FindMode reg inspName mt with
    | none => .error (.failRep ("UNKNOWN_MODE".data) (ircv3Name ++ (" is not a valid mode name".data)))
    | some mh =>
      if needsParam mh plus then
        match sep with
        | none => .error (.failRep ("MISSING_VALUE".data) (prop ++ (" requires a value".data)))
        | some p => .ok ⟨mh, plus, prop.drop (p + 1)⟩
      else
        match sep with
        | none => .ok ⟨mh, plus, []⟩
        | some _ => .error (.failRep ("UNEXPECTED_VALUE".data) (prop ++ (" does not take a value".data)))

/-- Models CommandProp::ListMode: replies to a PROP list request, or produces
the structured error it sends.  Note the source hardcodes MODETYPE_CHANNEL in
its FindMode call here. -/
def ListModeCmd (reg : Registry) (mt : ModeType) (ch : ChannelM) (ircv3Name : Str) :
    Except ReplyM (List ReplyM) :=
  if ircv3Name.contains '=' then
    .error (.failRep ("INVALID_SYNTAX".data) ("PROP list request should not have a value".data))
  else
    match ircv3_to_insp mt ircv3Name with
    | none => .error (.failRep ("UNKNOWN_MODE".data) (ircv3Name ++ (" is not a valid mode name".data)))
    | some inspName =>
      match FindMode reg inspName ModeType.channel with
      | none => .error (.failRep ("UNKNOWN_MODE".data) (ircv3Name ++ (" is not a valid mode name".data)))
      | some mh =>
        if mh.isListModeB then
          let items :=
            match GetList ch mh.name with
            | some l => l.map (fun it => ReplyM.listItem ch.cname ircv3Name it.mask it.setter it.time)
            | none => []
          .ok (items ++ [ReplyM.numeric 962 [ch.cname, ircv3Name, "End of mode list".data]])
        else
          .error (.failRep ("NOT_LISTMODE".data) (ircv3Name ++ (" is not a list mode".data)))

/-- Models the token loop of CommandProp::HandleLocal: consumes tokens left to
right while success holds, accumulating ChangeList entries and replies;
returns (success, accumulated changes, replies written so far). -/
def PropLoop (reg : Registry) (mt : ModeType) (ch : ChannelM) :
    List Str → List ChangeM → List ReplyM → Bool × List ChangeM × List ReplyM
  | [], acc, reps => (true, acc, reps)
  | [] :: rest, acc, reps => PropLoop reg mt ch rest acc reps
  | (c :: cs) :: rest, acc, reps =>
    if c = '+' then
      match ChangeMode reg mt cs true with
      | .ok x => PropLoop reg mt ch rest (acc ++ [x]) reps
      | .error r => (false, acc, reps ++ [r])
    else if c = '-' then
      match ChangeMode reg mt cs false with
      | .ok x => PropLoop reg mt ch rest (acc ++ [x]) reps
      | .error r => (false, acc, reps ++ [r])
    else
      match ListModeCmd reg mt ch (c :: cs) with
      | .ok rs => PropLoop reg mt ch rest acc (reps ++ rs)
      | .error r => (false, acc, reps ++ [r])

/-- Observable outcome of CommandProp::HandleLocal: the replies written to the
client, the ChangeList handed to ModeParser::ProcessSingle (none when the
mode-application subsystem is never invoked), and the returned CmdResult. -/
structure HandleResult where
  replies : List ReplyM
  submitted : Option (List ChangeM)
  success : Bool
deriving DecidableEq, Repr

/-- Models ServerInstance->Channels.Find. -/
def FindChannel (chans : List ChannelM) (name : Str) : Option ChannelM :=
  chans.find? (fun ch => ch.cname == name)

/-- Models CommandProp::HandleLocal.  p0 is parameters[0]; rest the remaining
parameters; member and auspex model channel->HasUser(src) and
src->HasPrivPermission("channels/auspex") for the dump. -/
def HandleLocal (reg : Registry) (chans : List ChannelM) (p0 : Str) (rest : List Str)
    (member auspex : Bool) : HandleResult :=
  match FindChannel chans p0 with
  | none => ⟨[ReplyM.numeric 403 [p0, "No such channel".data]], none, false⟩
  | some ch =>
    if rest = [] then ⟨DisplayModeList reg ch member auspex, none, true⟩
    else
      let r := PropLoop reg ModeType.channel ch rest [] []
      if r.1 then ⟨r.2.2, some r.2.1, true⟩
      else ⟨r.2.2 ++ [ReplyM.failRep ("UNKNOWN".data) ("unknown error".data)], none, false⟩

/-- Whether one PROP token is processed without error. -/
def tokenOk (reg : Registry) (mt : ModeType) (ch : ChannelM) : Str → Bool
  | [] => true
  | c :: cs =>
    if c = '+' then (ChangeMode reg mt cs true).toBool
    else if c = '-' then (ChangeMode reg mt cs false).toBool
    else (ListModeCmd reg mt ch (c :: cs)).toBool

/-- ChangeList entries contributed by one valid token. -/
def tokenChanges (reg : Registry) (mt : ModeType) : Str → List ChangeM
  | [] => []
  | c :: cs =>
    if c = '+' then (match ChangeMode reg mt cs true with | .ok x => [x] | .error _ => [])
    else if c = '-' then (match ChangeMode reg mt cs false with | .ok x => [x] | .error _ => [])
    else []

/-- Replies contributed by one valid token (list-query streaming). -/
def tokenReplies (reg : Registry) (mt : ModeType) (ch : ChannelM) : Str → List ReplyM
  | [] => []
  | c :: cs =>
    if c = '+' then []
    else if c = '-' then []
    else (match ListModeCmd reg mt ch (c :: cs) with | .ok rs => rs | .error _ => [])

/-- The structured error sent for an invalid token. -/
def tokenErr (reg : Registry) (mt : ModeType) (ch : ChannelM) : Str → ReplyM
  | [] => ReplyM.numeric 0 []
  | c :: cs =>
    if c = '+' then (match ChangeMode reg mt cs true with | .error r => r | .ok _ => ReplyM.numeric 0 [])
    else if c = '-' then (match ChangeMode reg mt cs false with | .error r => r | .ok _ => ReplyM.numeric 0 [])
    else (match ListModeCmd reg mt ch (c :: cs) with | .error r => r | .ok _ => ReplyM.numeric 0 [])

/-- Whether a token is nonempty and starts with '+' or '-'. -/
def isPM : Str → Bool
  | c :: _ => c = '+' || c = '-'
  | _ => false

/-- Number of nonempty tokens whose first character is '+' or '-'. -/
def countPM (tokens : List Str) : Nat := (tokens.filter isPM).length

/-- Length of the submitted ChangeList (0 when nothing was submitted). -/
def submittedCount (r : HandleResult) : Nat := (r.submitted.getD []).length

/-- A ClientProtocol::Message as this module observes one: command, optional
source string, source user, positional parameters. -/
structure MsgM where
  command : Str
  source : Option Str
  sourceUser : Str
  params : List Str
deriving DecidableEq, Repr

/-- A Modes::Change inside an outbound MODE event; the handler may be null. -/
structure ChangeEntryM where
  mh : Option ModeHandlerM
  adding : Bool
  param : Str
deriving DecidableEq, Repr

/-- A ClientProtocol::Events::Mode: its legacy MODE messages and the applied
change list. -/
structure ModeEventM where
  messages : List MsgM
  changes : List ChangeEntryM
deriving DecidableEq, Repr

/-- The second PROP parameter built for one change: sign, then the handler's
internal name, then "=" and the parameter when the parameter is nonempty. -/
def propToken (adding : Bool) (name param : Str) : Str :=
  (if adding then '+' else '-') :: (if param = [] then name else name ++ '=' :: param)

/-- The PROP message built for one change of the event. -/
def buildProp (source : Option Str) (sourceUser target : Str) (c : ChangeEntryM)
    (mh : ModeHandlerM) : MsgM :=
  ⟨"PROP".data, source, sourceUser, [target, propToken c.adding mh.name c.param]⟩

/-- The per-change build loop of ModeHook::OnEventInit.  On the first change
with a null handler it logs and returns, keeping the messages already built
(the second null check in the source, after the message allocation, is
unreachable). -/
def buildMsgs (source : Option Str) (sourceUser target : Str) :
    List ChangeEntryM → List MsgM
  | [] => []
  | c :: rest =>
    match c.mh with
    | none => []
    | some mh => buildProp source sourceUser target c mh :: buildMsgs source sourceUser target rest

/-- Models ModeHook::OnEventInit: clears the buffer, aborts on an empty
message list, else builds one PROP message per change, taking the shared
source and target from the first legacy message. -/
def OnEventInit (ev : ModeEventM) : List MsgM :=
  match ev.messages with
  | [] => []
  | m :: _ => buildMsgs m.source m.sourceUser (m.params.headD []) ev.changes

/-- Models ModeHook::OnPreEventSend for one recipient: when the capability is
enabled, the first nb legacy messages are overwritten by the first nb built
PROP messages (std::copy) and the remaining built messages are inserted after
them; otherwise the recipient's list is untouched.  nb is the number of legacy
messages of the event. -/
def OnPreEventSend (capEnabled : Bool) (ev : ModeEventM) (propmsgs messagelist : List MsgM) :
    List MsgM :=
  let nb := ev.messages.length
  if capEnabled then propmsgs.take nb ++ propmsgs.drop nb ++ messagelist.drop nb
  else messagelist

/-- Stated from the spec for comparison with OnEventInit: the build yields one
message per change for exactly the changes preceding the first one without a
resolved descriptor, and nothing when the event's message list is empty. -/
def buildUpToFirstUnresolved (ev : ModeEventM) : List MsgM :=
  match ev.messages with
  | [] => []
  | m :: _ =>
    (ev.changes.takeWhile (fun c => c.mh.isSome)).filterMap
      (fun c => c.mh.map (buildProp m.source m.sourceUser (m.params.headD []) c))

/-- Models the DummyZ handler: list mode "namebase", letter Z, PARAM_ALWAYS,
MODETYPE_CHANNEL. -/
def dummyZ : ModeHandlerM :=
  ⟨"namebase".data, 'Z', .channel, true, true, true, false, false, false⟩

/-- The name part of a placeholder payload: everything before the first '='
(name.erase(eq) in the source), or the whole payload without one. -/
def placeholderName (p : Str) : Str := p.take ((findEqPos p).getD p.length)

/-- The value part of a placeholder payload: everything after the first '='
(value.assign(name, eq + 1, npos) in the source), or empty without one. -/
def placeholderValue (p : Str) : Str :=
  match findEqPos p with
  | some q => p.drop (q + 1)
  | none => []

/-- Models ModuleIrcv3NamedModes::OnPreMode's rewrite over the change list:
each change whose handler is the placeholder is parsed as name[=value],
resolved against the registry, erased when unresolvable or when a required
value is missing, and otherwise replaced; other changes pass through. -/
def OnPreMode (reg : Registry) : List ChangeM → List ChangeM
  | [] => []
  | curr :: rest =>
    if curr.mh = dummyZ then
      match FindMode reg (placeholderName curr.param) ModeType.channel with
      | none => OnPreMode reg rest
      | some mh =>
        if needsParam mh curr.adding then
          if placeholderValue curr.param = [] then OnPreMode reg rest
          else ⟨mh, curr.adding, placeholderValue curr.param⟩ :: OnPreMode reg rest
        else ⟨mh, curr.adding, []⟩ :: OnPreMode reg rest
    else curr :: OnPreMode reg rest

/-- The fate of one change under the rewrite pass: a non-placeholder change
passes through; a placeholder change is resolved by name lookup and either
erased or replaced, the post-'=' text becoming its value when required. -/
def resolvePlaceholder (reg : Registry) (c : ChangeM) : Option ChangeM :=
  if c.mh = dummyZ then
    match FindMode reg (placeholderName c.param) ModeType.channel with
    | none => none
    | some mh =>
      if needsParam mh c.adding then
        if placeholderValue c.param = [] then none
        else some ⟨mh, c.adding, placeholderValue c.param⟩
      else some ⟨mh, c.adding, []⟩
  else some c

/-- One line of the connection-time catalogue: whether it is a continuation
line (the leading asterisk parameter) and its type:wireName=letter payload. -/
structure CatLineM where
  star : Bool
  modeString : Str
deriving DecidableEq, Repr

/-- The InspIRCd::Format("%d:%s=%c", ...) payload of one catalogue line. -/
def modeStringFor (mt : ModeType) (t : Nat) (mh : ModeHandlerM) : Str :=
  (Nat.repr t).data ++ ':' :: (insp_to_ircv3 mt mh.name ++ '=' :: [mh.letter])

/-- Models the loop of ModuleIrcv3NamedModes::WriteModes.  The source loop
advances its iterator only on the emitting path; both skip branches hit a bare
continue, so they re-enter the body with the same iterator.  Fuel bounds the
number of executed iterations: none means the fuel ran out, i.e. the loop had
not finished within that many iterations. -/
def WriteModesLoop (mt : ModeType) : Nat → List ModeHandlerM → List CatLineM → Option (List CatLineM)
  | 0, _, _ => none
  | _ + 1, [], acc => some acc
  | fuel + 1, mh :: rest, acc =>
    let typeO : Option Nat :=
      if mh.hasPrefixChar then some 5
      else if mh.isListModeB then some 1
      else if mh.needsParamSet && mh.needsParamUnset then some 2
      else if mh.needsParamSet then some 3
      else if mh.needsParamUnset then none
      else some 4
    match typeO with
    | none => WriteModesLoop mt fuel (mh :: rest) acc
    | some t =>
      if mt == ModeType.user && (t == 1 || t == 2 || t == 5) then
        WriteModesLoop mt fuel (mh :: rest) acc
      else
        match rest with
        | [] => some (acc ++ [⟨false, modeStringFor mt t mh⟩])
        | _ => WriteModesLoop mt fuel rest (acc ++ [⟨true, modeStringFor mt t mh⟩])

/-- Models ModuleIrcv3NamedModes::WriteModes over a registry, with fuel. -/
def WriteModes (reg : Registry) (mt : ModeType) (fuel : Nat) : Option (List CatLineM) :=
  WriteModesLoop mt fuel (GetModes reg mt) []

/-- A flag channel mode (topiclock): no parameter either way. -/
def mhTopiclock : ModeHandlerM := ⟨"topiclock".data, 't', .channel, false, false, false, false, false, false⟩

/-- A parameter channel mode (key), secret parameter. -/
def mhKey : ModeHandlerM := ⟨"key".data, 'k', .channel, true, true, false, false, true, true⟩

/-- A list channel mode (ban). -/
def mhBan : ModeHandlerM := ⟨"ban".data, 'b', .channel, true, true, true, false, false, false⟩

/-- A registered flag mode whose wire name differs from its internal name. -/
def mhCReg : ModeHandlerM := ⟨"c_registered".data, 'r', .channel, false, false, false, false, false, false⟩

/-- A mode needing a parameter only when unsetting: the registry contradiction
the catalogue dump claims to skip. -/
def mhWat : ModeHandlerM := ⟨"watmode".data, 'w', .channel, false, true, false, false, false, false⟩

/-- A secret parameter mode with no table entry (vendored wire name). -/
def mhFlood : ModeHandlerM := ⟨"flood_msgs".data, 'f', .channel, true, true, false, false, true, true⟩

/-- A small registry with one mode of each relevant kind plus the placeholder. -/
def sampleReg : Registry := [mhTopiclock, mhKey, mhBan, mhCReg, dummyZ]

/-- A channel with topiclock set and one ban entry. -/
def sampleChan : ChannelM :=
  ⟨"#chan".data, [("topiclock".data, [])], [("ban".data, [⟨"*!*@host".data, "setter".data, 1700000000⟩])]⟩

/-- A channel with the vendored secret parameter mode set. -/
def chanFlood : ChannelM := ⟨"#chan".data, [("flood_msgs".data, "10:5".data)], []⟩

/-- A legacy MODE message used in the outbound-event fixtures. -/
def legacyCtr : MsgM := ⟨"MODE".data, some ("srv".data), "srv".data, ["#chan".data, "+t".data]⟩

/-- An outbound event whose second change has a null handler. -/
def evCtr : ModeEventM := ⟨[legacyCtr], [⟨some mhTopiclock, true, []⟩, ⟨none, true, []⟩]⟩

/-- An outbound event changing c_registered. -/
def evCReg : ModeEventM := ⟨[⟨"MODE".data, some ("nick!u@h".data), "nick".data, ["#chan".data, "+r".data]⟩],
  [⟨some mhCReg, true, []⟩]⟩

/-- Structured-error counting distributes over reply concatenation. -/
theorem countFails_append (a b : List ReplyM) :
    countFails (a ++ b) = countFails a + countFails b := by
  simp [countFails, List.filter_append]

/-- Every error produced by ChangeMode is a structured FAIL reply. -/
theorem changeMode_error_isFail (reg : Registry) (mt : ModeType) (cs : Str) (pl : Bool)
    (r : ReplyM) (h : ChangeMode reg mt cs pl = .error r) : isFail r = true := by
  unfold ChangeMode at h
  dsimp only at h
  repeat' split at h
  all_goals first
    | exact (Except.noConfusion h)
    | (injection h with h; subst h; rfl)

/-- Every error produced by ListModeCmd is a structured FAIL reply. -/
theorem listModeCmd_error_isFail (reg : Registry) (mt : ModeType) (ch : ChannelM) (n : Str)
    (r : ReplyM) (h : ListModeCmd reg mt ch n = .error r) : isFail r = true := by
  unfold ListModeCmd at h
  dsimp only at h
  repeat' split at h
  all_goals first
    | exact (Except.noConfusion h)
    | (injection h with h; subst h; rfl)

/-- A successful list query streams no structured error replies. -/
theorem listModeCmd_ok_countFails (reg : Registry) (mt : ModeType) (ch : ChannelM) (n : Str)
    (rs : List ReplyM) (h : ListModeCmd reg mt ch n = .ok rs) : countFails rs = 0 := by
  unfold ListModeCmd at h
  dsimp only at h
  repeat' split at h
  all_goals first
    | exact (Except.noConfusion h)
    | (injection h with h; subst h;
       simp [countFails, List.filter_append, List.filter_map, isFail, Function.comp])

/-- Stepping the token loop over one valid token. -/
theorem propLoop_cons_ok (reg : Registry) (mt : ModeType) (ch : ChannelM) (t : Str)
    (rest : List Str) (acc : List ChangeM) (reps : List ReplyM)
    (h : tokenOk reg mt ch t = true) :
    PropLoop reg mt ch (t :: rest) acc reps =
      PropLoop reg mt ch rest (acc ++ tokenChanges reg mt t) (reps ++ tokenReplies reg mt ch t) := by
  cases t with
  | nil => simp [PropLoop, tokenChanges, tokenReplies]
  | cons c cs =>
    by_cases hp : c = '+'
    · subst hp
      cases hcm : ChangeMode reg mt cs true with
      | ok x => simp [PropLoop, tokenChanges, tokenReplies, hcm]
      | error r => simp [tokenOk, hcm, Except.toBool] at h
    · by_cases hm : c = '-'
      · subst hm
        cases hcm : ChangeMode reg mt cs false with
        | ok x => simp [PropLoop, tokenChanges, tokenReplies, hcm]
        | error r => simp [tokenOk, hcm, Except.toBool] at h
      · cases hcm : ListModeCmd reg mt ch (c :: cs) with
        | ok rs => simp [PropLoop, tokenChanges, tokenReplies, hp, hm, hcm]
        | error r => simp [tokenOk, hp, hm, hcm, Except.toBool] at h

/-- Stepping the token loop over an invalid token: the loop stops at once,
discards nothing already accumulated but submits nothing further, and appends
exactly the token's structured error. -/
theorem propLoop_cons_bad (reg : Registry) (mt : ModeType) (ch : ChannelM) (t : Str)
    (rest : List Str) (acc : List ChangeM) (reps : List ReplyM)
    (h : tokenOk reg mt ch t = false) :
    PropLoop reg mt ch (t :: rest) acc reps = (false, acc, reps ++ [tokenErr reg mt ch t]) ∧
      isFail (tokenErr reg mt ch t) = true := by
  cases t with
  | nil => simp [tokenOk] at h
  | cons c cs =>
    by_cases hp : c = '+'
    · subst hp
      cases hcm : ChangeMode reg mt cs true with
      | ok x => simp [tokenOk, hcm, Except.toBool] at h
      | error r =>
        exact ⟨by simp [PropLoop, tokenErr, hcm],
          by simpa [tokenErr, hcm] using changeMode_error_isFail reg mt cs true r hcm⟩
    · by_cases hm : c = '-'
      · subst hm
        cases hcm : ChangeMode reg mt cs false with
        | ok x => simp [tokenOk, hcm, Except.toBool] at h
        | error r =>
          exact ⟨by simp [PropLoop, tokenErr, hcm],
            by simpa [tokenErr, hcm] using changeMode_error_isFail reg mt cs false r hcm⟩
      · cases hcm : ListModeCmd reg mt ch (c :: cs) with
        | ok rs => simp [tokenOk, hp, hm, hcm, Except.toBool] at h
        | error r =>
          exact ⟨by simp [PropLoop, tokenErr, hp, hm, hcm],
            by simpa [tokenErr, hp, hm, hcm] using listModeCmd_error_isFail reg mt ch (c :: cs) r hcm⟩

/-- A valid token streams no structured error replies. -/
theorem countFails_tokenReplies (reg : Registry) (mt : ModeType) (ch : ChannelM) (t : Str)
    (h : tokenOk reg mt ch t = true) : countFails (tokenReplies reg mt ch t) = 0 := by
  cases t with
  | nil => rfl
  | cons c cs =>
    by_cases hp : c = '+'
    · simp [tokenReplies, hp, countFails]
    · by_cases hm : c = '-'
      · simp [tokenReplies, hp, hm, countFails]
      · cases hcm : ListModeCmd reg mt ch (c :: cs) with
        | ok rs => simpa [tokenReplies, hp, hm, hcm] using listModeCmd_ok_countFails reg mt ch (c :: cs) rs hcm
        | error r => simp [tokenOk, hp, hm, hcm, Except.toBool] at h

/-- A valid token contributes one ChangeList entry exactly when it is signed. -/
theorem tokenChanges_length (reg : Registry) (mt : ModeType) (ch : ChannelM) (t : Str)
    (h : tokenOk reg mt ch t = true) :
    (tokenChanges reg mt t).length = if isPM t then 1 else 0 := by
  cases t with
  | nil => rfl
  | cons c cs =>
    by_cases hp : c = '+'
    · subst hp
      cases hcm : ChangeMode reg mt cs true with
      | ok x => simp [tokenChanges, isPM, hcm]
      | error r => simp [tokenOk, hcm, Except.toBool] at h
    · by_cases hm : c = '-'
      · subst hm
        cases hcm : ChangeMode reg mt cs false with
        | ok x => simp [tokenChanges, isPM, hcm]
        | error r => simp [tokenOk, hcm, Except.toBool] at h
      · simp [tokenChanges, isPM, hp, hm]

/-- After any run of valid tokens, the first invalid token stops the loop:
the outcome ignores everything after it, reports failure, and adds exactly one
structured error to the replies accumulated so far. -/
theorem propLoop_first_failure (reg : Registry) (mt : ModeType) (ch : ChannelM) :
    ∀ (a : List Str) (bad : Str) (b b' : List Str) (acc : List ChangeM) (reps : List ReplyM),
      (∀ t ∈ a, tokenOk reg mt ch t = true) → tokenOk reg mt ch bad = false →
      PropLoop reg mt ch (a ++ bad :: b) acc reps = PropLoop reg mt ch (a ++ bad :: b') acc reps ∧
        (PropLoop reg mt ch (a ++ bad :: b) acc reps).1 = false ∧
        countFails (PropLoop reg mt ch (a ++ bad :: b) acc reps).2.2 = countFails reps + 1 := by
  intro a
  induction a with
  | nil =>
    intro bad b b' acc reps _ hbad
    obtain ⟨he, hf⟩ := propLoop_cons_bad reg mt ch bad b acc reps hbad
    obtain ⟨he', _⟩ := propLoop_cons_bad reg mt ch bad b' acc reps hbad
    refine ⟨by rw [List.nil_append, he, List.nil_append, he'], ?_, ?_⟩
    · rw [List.nil_append, he]
    · rw [List.nil_append, he]
      simp [countFails_append, countFails, hf]
  | cons t a ih =>
    intro bad b b' acc reps ha hbad
    have hok : tokenOk reg mt ch t = true := ha t (by simp)
    have ha' : ∀ u ∈ a, tokenOk reg mt ch u = true := fun u hu => ha u (by simp [hu])
    rw [List.cons_append, propLoop_cons_ok reg mt ch t _ acc reps hok,
      List.cons_append, propLoop_cons_ok reg mt ch t _ acc reps hok]
    obtain ⟨h1, h2, h3⟩ := ih bad b b' (acc ++ tokenChanges reg mt t)
      (reps ++ tokenReplies reg mt ch t) ha' hbad
    refine ⟨h1, h2, ?_⟩
    rw [h3, countFails_append, countFails_tokenReplies reg mt ch t hok]

/-- When the token loop succeeds, it accumulates one ChangeList entry per
signed token. -/
theorem propLoop_success_length (reg : Registry) (mt : ModeType) (ch : ChannelM) :
    ∀ (tokens : List Str) (acc : List ChangeM) (reps : List ReplyM),
      (PropLoop reg mt ch tokens acc reps).1 = true →
      (PropLoop reg mt ch tokens acc reps).2.1.length = acc.length + countPM tokens := by
  intro tokens
  induction tokens with
  | nil => intro acc reps _; simp [PropLoop, countPM]
  | cons t rest ih =>
    intro acc reps h
    by_cases hok : tokenOk reg mt ch t = true
    · rw [propLoop_cons_ok reg mt ch t rest acc reps hok] at h ⊢
      rw [ih _ _ h, List.length_append, tokenChanges_length reg mt ch t hok]
      by_cases hpm : isPM t = true
      · simp [countPM, List.filter_cons, hpm]
        try omega
      · rw [Bool.not_eq_true] at hpm
        simp [countPM, List.filter_cons, hpm]
        try omega
    · rw [Bool.not_eq_true] at hok
      obtain ⟨he, _⟩ := propLoop_cons_bad reg mt ch t rest acc reps hok
      rw [he] at h
      exact absurd h (by simp)

/-- The token-loop part of buildMsgs equals the take-while description. -/
theorem buildMsgs_eq_takeWhile (source : Option Str) (sourceUser target : Str)
    (changes : List ChangeEntryM) :
    buildMsgs source sourceUser target changes =
      (changes.takeWhile (fun c => c.mh.isSome)).filterMap
        (fun c => c.mh.map (buildProp source sourceUser target c)) := by
  induction changes with
  | nil => rfl
  | cons c rest ih =>
    cases h : c.mh with
    | none => simp [buildMsgs, List.takeWhile, h]
    | some mh => simp [buildMsgs, List.takeWhile, h, ih]

/-- Skipping the contradictory mode never advances the catalogue iterator. -/
theorem writeModesLoop_wat (fuel : Nat) (acc : List CatLineM) :
    WriteModesLoop ModeType.channel fuel [mhWat] acc = none := by
  induction fuel with
  | zero => rfl
  | succ n ih => simpa [WriteModesLoop, mhWat] using ih


/-- C1 (amended): for a PROP command whose tokens contain an invalid one,
processing stops at the first failing token (the outcome is identical whatever
follows it), the mode-application subsystem receives nothing (accumulated
entries are discarded), and the client receives exactly two structured error
replies: the specific error for the failing token, then the generic UNKNOWN
error sent by the handler. -/
theorem prop_invalid_token_atomic (reg : Registry) (chans : List ChannelM) (p0 : Str)
    (chan : ChannelM) (member auspex : Bool) (a : List Str) (bad : Str) (b : List Str)
    (hc : FindChannel chans p0 = some chan)
    (ha : ∀ t ∈ a, tokenOk reg ModeType.channel chan t = true)
    (hbad : tokenOk reg ModeType.channel chan bad = false) :
    (HandleLocal reg chans p0 (a ++ bad :: b) member auspex).submitted = none ∧
      countFails (HandleLocal reg chans p0 (a ++ bad :: b) member auspex).replies = 2 ∧
      HandleLocal reg chans p0 (a ++ bad :: b) member auspex =
        HandleLocal reg chans p0 (a ++ [bad]) member auspex := by
  obtain ⟨heq, hfalse, hcount⟩ :=
    propLoop_first_failure reg ModeType.channel chan a bad b [] [] [] ha hbad
  have hne : a ++ bad :: b ≠ [] := by
    cases a <;> simp
  have hne' : a ++ [bad] ≠ [] := by
    cases a <;> simp
  have hfalse' : (PropLoop reg ModeType.channel chan (a ++ [bad]) [] []).1 = false := by
    rw [← heq]
    exact hfalse
  have hl : ∀ (tokens : List Str), tokens ≠ [] →
      (PropLoop reg ModeType.channel chan tokens [] []).1 = false →
      HandleLocal reg chans p0 tokens member auspex =
        ⟨(PropLoop reg ModeType.channel chan tokens [] []).2.2 ++
          [ReplyM.failRep ("UNKNOWN".data) ("unknown error".data)], none, false⟩ := by
    intro tokens h1 h2
    unfold HandleLocal
    rw [hc]
    simp only [if_neg h1, h2, Bool.false_eq_true, if_false]
  rw [hl _ hne hfalse, hl _ hne' hfalse']
  refine ⟨rfl, ?_, ?_⟩
  · rw [countFails_append, hcount]
    rfl
  · rw [heq]

/-- C1 witness: a command with one valid list-query token, then an invalid
token, then a trailing token that is never examined. -/
theorem prop_invalid_token_atomic_witness :
    (FindChannel [sampleChan] ("#chan".data) = some sampleChan ∧
      (∀ t ∈ [("ban".data)], tokenOk sampleReg ModeType.channel sampleChan t = true) ∧
      tokenOk sampleReg ModeType.channel sampleChan ("+bogus".data) = false) ∧
      (HandleLocal sampleReg [sampleChan] ("#chan".data)
          ([("ban".data)] ++ ("+bogus".data) :: [("+key=k".data)]) false false).submitted = none ∧
      countFails (HandleLocal sampleReg [sampleChan] ("#chan".data)
          ([("ban".data)] ++ ("+bogus".data) :: [("+key=k".data)]) false false).replies = 2 ∧
      HandleLocal sampleReg [sampleChan] ("#chan".data)
          ([("ban".data)] ++ ("+bogus".data) :: [("+key=k".data)]) false false =
        HandleLocal sampleReg [sampleChan] ("#chan".data)
          ([("ban".data)] ++ [("+bogus".data)]) false false :=
  ⟨⟨by decide, by decide, by decide⟩,
    prop_invalid_token_atomic sampleReg [sampleChan] ("#chan".data) sampleChan false false
      [("ban".data)] ("+bogus".data) [("+key=k".data)] (by decide) (by decide) (by decide)⟩

/-- C1 counterexample: a command with an invalid token draws two structured
error replies, not exactly one. -/
theorem prop_error_reply_count_counterexample :
    countFails (HandleLocal sampleReg [sampleChan] ("#chan".data) [("+bogus".data)]
      false false).replies = 2 ∧
      (HandleLocal sampleReg [sampleChan] ("#chan".data) [("+bogus".data)] false false).replies =
        [ReplyM.failRep ("UNKNOWN_MODE".data) ("bogus is not a valid mode name".data),
         ReplyM.failRep ("UNKNOWN".data) ("unknown error".data)] := by
  decide

/-- C8: when a PROP command on an existing channel succeeds, the ChangeList
submitted to the mode-application subsystem has exactly one entry per nonempty
token starting with '+' or '-'; empty tokens and bare list-query tokens
contribute none. -/
theorem prop_success_change_count (reg : Registry) (chans : List ChannelM) (p0 : Str)
    (chan : ChannelM) (member auspex : Bool) (tokens : List Str)
    (hc : FindChannel chans p0 = some chan)
    (hres : (HandleLocal reg chans p0 tokens member auspex).success = true) :
    submittedCount (HandleLocal reg chans p0 tokens member auspex) = countPM tokens := by
  unfold HandleLocal at hres ⊢
  rw [hc] at hres ⊢
  by_cases he : tokens = []
  · subst he
    simp [submittedCount, countPM]
  · simp only [if_neg he] at hres ⊢
    by_cases hl : (PropLoop reg ModeType.channel chan tokens [] []).1 = true
    · simp only [hl, if_true]
      have := propLoop_success_length reg ModeType.channel chan tokens [] [] hl
      simpa [submittedCount] using this
    · rw [Bool.not_eq_true] at hl
      simp only [hl] at hres
      exact absurd hres (by simp)

/-- C8 witness: an empty token, a flag set, and a list query submit exactly
one ChangeList entry. -/
theorem prop_success_change_count_witness :
    (FindChannel [sampleChan] ("#chan".data) = some sampleChan ∧
      (HandleLocal sampleReg [sampleChan] ("#chan".data)
        [[], ("+topiclock".data), ("ban".data)] false false).success = true) ∧
      submittedCount (HandleLocal sampleReg [sampleChan] ("#chan".data)
          [[], ("+topiclock".data), ("ban".data)] false false) =
        countPM [[], ("+topiclock".data), ("ban".data)] :=
  ⟨⟨by decide, by decide⟩,
    prop_success_change_count sampleReg [sampleChan] ("#chan".data) sampleChan false false
      [[], ("+topiclock".data), ("ban".data)] (by decide) (by decide)⟩

/-- C7: for a recipient without the draft/named-modes capability, the delivery
phase leaves the recipient's outbound message list completely unchanged, so
that recipient still sees the legacy MODE form. -/
theorem cap_disabled_list_untouched (ev : ModeEventM) (propmsgs messagelist : List MsgM) :
    OnPreEventSend false ev propmsgs messagelist = messagelist := by
  rfl

/-- C10: when the first PROP parameter names no existing channel, the handler
writes exactly the no-such-channel numeric and fails, invoking neither the
mode-application subsystem nor the dump. -/
theorem prop_no_such_channel (reg : Registry) (chans : List ChannelM) (p0 : Str)
    (rest : List Str) (member auspex : Bool) (h : FindChannel chans p0 = none) :
    HandleLocal reg chans p0 rest member auspex =
      ⟨[ReplyM.numeric 403 [p0, "No such channel".data]], none, false⟩ := by
  simp [HandleLocal, h]

/-- C10 witness: a concrete PROP aimed at a user nick rather than a channel. -/
theorem prop_no_such_channel_witness :
    FindChannel [sampleChan] ("nick".data) = none ∧
      HandleLocal sampleReg [sampleChan] ("nick".data) [("+topiclock".data)] false false =
        ⟨[ReplyM.numeric 403 ["nick".data, "No such channel".data]], none, false⟩ :=
  ⟨by decide, prop_no_such_channel sampleReg [sampleChan] ("nick".data) [("+topiclock".data)]
    false false (by decide)⟩

/-- C4: the catalogue dump does not run to completion on a registry holding a
mode that needs a parameter only when unsetting: the skip branch re-enters the
loop without advancing the iterator, so no amount of loop iterations finishes
the dump (the same holds for the user-mode skip branch). -/
theorem writemodes_wat_never_completes (fuel : Nat) :
    WriteModes [mhWat] ModeType.channel fuel = none := by
  simpa [WriteModes, GetModes, mhWat] using writeModesLoop_wat fuel []

/-- C5 (amended): the build phase yields one message per change exactly for
the changes preceding the first one without a resolved descriptor — all of
them when every change is resolved, none when the event's message list is
empty — rather than always producing zero messages on a defensive abort. -/
theorem oneventinit_builds_resolved_head (ev : ModeEventM) :
    OnEventInit ev = buildUpToFirstUnresolved ev := by
  unfold OnEventInit buildUpToFirstUnresolved
  cases ev.messages with
  | nil => rfl
  | cons m ms => exact buildMsgs_eq_takeWhile m.source m.sourceUser (m.params.headD []) ev.changes

/-- C5 counterexample: an event whose second change has a null handler still
builds the first change's PROP message, and a capability-enabled recipient's
outbound list receives it. -/
theorem oneventinit_partial_counterexample :
    OnEventInit evCtr =
      [⟨"PROP".data, some ("srv".data), "srv".data, ["#chan".data, "+topiclock".data]⟩] ∧
      OnPreEventSend true evCtr (OnEventInit evCtr) [legacyCtr] =
        [⟨"PROP".data, some ("srv".data), "srv".data, ["#chan".data, "+topiclock".data]⟩] := by
  decide

/-- A handler found by FindMode carries the name it was looked up under. -/
theorem findMode_name (reg : Registry) (name : Str) (mt : ModeType) (mh : ModeHandlerM)
    (h : FindMode reg name mt = some mh) : mh.name = name := by
  unfold FindMode at h
  have h2 := List.find?_some h
  simp only [Bool.and_eq_true, beq_iff_eq] at h2
  exact h2.1

/-- The rewrite pass applies resolvePlaceholder to each change in place. -/
theorem onPreMode_eq_filterMap (reg : Registry) :
    ∀ l : List ChangeM, OnPreMode reg l = l.filterMap (resolvePlaceholder reg) := by
  intro l
  induction l with
  | nil => rfl
  | cons curr rest ih =>
    unfold OnPreMode resolvePlaceholder
    rw [List.filterMap_cons]
    by_cases hd : curr.mh = dummyZ
    · rw [if_pos hd, if_pos hd]
      cases hf : FindMode reg (placeholderName curr.param) ModeType.channel with
      | none => simpa using ih
      | some mh =>
        by_cases hnp : needsParam mh curr.adding = true
        · by_cases hv : placeholderValue curr.param = []
          · simp only [hnp, hv, if_true, ih]
            rfl
          · simp only [hnp, hv, if_true, if_neg hv, ih]
            rfl
        · rw [Bool.not_eq_true] at hnp
          simp only [hnp, Bool.false_eq_true, if_false, ih]
          rfl
    · rw [if_neg hd, if_neg hd]
      simpa using ih

/-- Under the proviso of the amended C6, no output of the pass carries the
placeholder descriptor. -/
theorem onPreMode_no_placeholder (reg : Registry) :
    ∀ l : List ChangeM,
      (∀ c ∈ l, c.mh = dummyZ → placeholderName c.param ≠ ("namebase".data)) →
      ∀ c ∈ OnPreMode reg l, c.mh ≠ dummyZ := by
  intro l
  induction l with
  | nil =>
    intro _ c hc
    simp [OnPreMode] at hc
  | cons curr rest ih =>
    intro H c hc
    have Hrest : ∀ c ∈ rest, c.mh = dummyZ → placeholderName c.param ≠ ("namebase".data) :=
      fun c h hd => H c (List.mem_cons_of_mem _ h) hd
    unfold OnPreMode at hc
    by_cases hd : curr.mh = dummyZ
    · rw [if_pos hd] at hc
      cases hf : FindMode reg (placeholderName curr.param) ModeType.channel with
      | none =>
        rw [hf] at hc
        exact ih Hrest c hc
      | some mh =>
        rw [hf] at hc
        dsimp only at hc
        have hmh : mh ≠ dummyZ := by
          intro hmm
          apply H curr (List.mem_cons_self _ _) hd
          rw [← findMode_name reg _ ModeType.channel mh hf, hmm]
          rfl
        by_cases hnp : needsParam mh curr.adding = true
        · rw [if_pos hnp] at hc
          by_cases hv : placeholderValue curr.param = []
          · rw [if_pos hv] at hc
            exact ih Hrest c hc
          · rw [if_neg hv] at hc
            rcases List.mem_cons.mp hc with hcc | hcc
            · rw [hcc]
              exact hmh
            · exact ih Hrest c hcc
        · rw [if_neg hnp] at hc
          rcases List.mem_cons.mp hc with hcc | hcc
          · rw [hcc]
            exact hmh
          · exact ih Hrest c hcc
    · rw [if_neg hd] at hc
      rcases List.mem_cons.mp hc with hcc | hcc
      · rw [hcc]
        exact hd
      · exact ih Hrest c hcc

/-- A change list without placeholder changes passes through untouched. -/
theorem onPreMode_id_of_no_placeholder (reg : Registry) :
    ∀ l : List ChangeM, (∀ c ∈ l, c.mh ≠ dummyZ) → OnPreMode reg l = l := by
  intro l
  induction l with
  | nil => intro _; rfl
  | cons curr rest ih =>
    intro H
    unfold OnPreMode
    rw [if_neg (H curr (List.mem_cons_self _ _)),
      ih (fun c hc => H c (List.mem_cons_of_mem _ hc))]

/-- C6 (amended): the pre-application rewrite replaces or erases each
placeholder change in place (the post-'=' text becoming the value when
required) and passes other changes through unchanged; provided no placeholder
payload names the placeholder mode itself, no placeholder-typed request
remains afterwards.  (A payload naming "namebase" re-resolves to the
placeholder and survives.) -/
theorem onpremode_placeholders_resolved (reg : Registry) (l : List ChangeM)
    (H : ∀ c ∈ l, c.mh = dummyZ → placeholderName c.param ≠ ("namebase".data)) :
    OnPreMode reg l = l.filterMap (resolvePlaceholder reg) ∧
      (∀ c ∈ OnPreMode reg l, c.mh ≠ dummyZ) ∧
      ((∀ c ∈ l, c.mh ≠ dummyZ) → OnPreMode reg l = l) :=
  ⟨onPreMode_eq_filterMap reg l, onPreMode_no_placeholder reg l H,
    onPreMode_id_of_no_placeholder reg l⟩

/-- C6 witness: a placeholder change naming ban resolves to the real handler
with the post-'=' text as value, and a flag change passes through. -/
theorem onpremode_placeholders_resolved_witness :
    (∀ c ∈ [ChangeM.mk dummyZ true ("ban=*!*@x".data), ChangeM.mk mhTopiclock true []],
        c.mh = dummyZ → placeholderName c.param ≠ ("namebase".data)) ∧
      OnPreMode sampleReg [ChangeM.mk dummyZ true ("ban=*!*@x".data), ChangeM.mk mhTopiclock true []] =
        [ChangeM.mk dummyZ true ("ban=*!*@x".data),
          ChangeM.mk mhTopiclock true []].filterMap (resolvePlaceholder sampleReg) ∧
      (∀ c ∈ OnPreMode sampleReg [ChangeM.mk dummyZ true ("ban=*!*@x".data),
          ChangeM.mk mhTopiclock true []], c.mh ≠ dummyZ) ∧
      ((∀ c ∈ [ChangeM.mk dummyZ true ("ban=*!*@x".data), ChangeM.mk mhTopiclock true []],
          c.mh ≠ dummyZ) →
        OnPreMode sampleReg [ChangeM.mk dummyZ true ("ban=*!*@x".data), ChangeM.mk mhTopiclock true []] =
          [ChangeM.mk dummyZ true ("ban=*!*@x".data), ChangeM.mk mhTopiclock true []]) :=
  ⟨by decide,
    onpremode_placeholders_resolved sampleReg
      [ChangeM.mk dummyZ true ("ban=*!*@x".data), ChangeM.mk mhTopiclock true []] (by decide)⟩

/-- C6 counterexample: a placeholder change whose payload names the
placeholder mode itself is rewritten back to the placeholder, so a
placeholder-typed request reaches the mode-application subsystem. -/
theorem onpremode_placeholder_survives :
    OnPreMode sampleReg [ChangeM.mk dummyZ true ("namebase=x".data)] =
        [ChangeM.mk dummyZ true ("x".data)] ∧
      ∃ c ∈ OnPreMode sampleReg [ChangeM.mk dummyZ true ("namebase=x".data)], c.mh = dummyZ :=
  ⟨by decide, ⟨ChangeM.mk dummyZ true ("x".data), by decide, rfl⟩⟩

/-- C2: at an event changing c_registered, the built PROP token carries the
internal name "+c_registered", although the wire name of the descriptor is
"regonly"; the emitted name is not even decodable by this module's own inbound
translator.  OnEventInit never calls insp_to_ircv3. -/
theorem outbound_token_uses_internal_name :
    OnEventInit evCReg =
      [⟨"PROP".data, some ("nick!u@h".data), "nick".data, ["#chan".data, "+c_registered".data]⟩] ∧
      insp_to_ircv3 ModeType.channel ("c_registered".data) = ("regonly".data) ∧
      ircv3_to_insp ModeType.channel ("c_registered".data) = none := by
  decide

/-- C9 (amended): the full dump emits, for every set channel mode that takes
a parameter, the parameter value — unless the mode is secret and the requester
is neither a member nor has the elevated-visibility privilege, in which case
it emits the mode's internal name (not its wire name) in angle brackets. -/
theorem dump_secret_param_redaction (reg : Registry) (ch : ChannelM) (member auspex : Bool)
    (mh : ModeHandlerM) (hm : mh ∈ reg) (ht : mh.mtype = ModeType.channel)
    (hset : IsModeSet ch mh = true) (hp : mh.isParamModeB = true) :
    (if mh.paramSecret && !member && !auspex then '<' :: (mh.name ++ (">".data))
     else GetModeParameter ch mh) ∈ dumpTokens reg ch member auspex := by
  unfold dumpTokens
  apply List.mem_flatMap.mpr
  refine ⟨mh, ?_, ?_⟩
  · simp [GetModes, List.mem_filter, hm, ht]
  · unfold displayTokensFor
    simp only [hset, hp, if_true]
    exact List.mem_cons_of_mem _ (List.mem_singleton.mpr rfl)

/-- C9 witness: the secret vendored parameter mode, an outside requester. -/
theorem dump_secret_param_redaction_witness :
    (mhFlood ∈ [mhFlood] ∧ mhFlood.mtype = ModeType.channel ∧
      IsModeSet chanFlood mhFlood = true ∧ mhFlood.isParamModeB = true) ∧
      (if mhFlood.paramSecret && !false && !false then '<' :: (mhFlood.name ++ (">".data))
       else GetModeParameter chanFlood mhFlood) ∈ dumpTokens [mhFlood] chanFlood false false :=
  ⟨⟨by decide, by decide, by decide, by decide⟩,
    dump_secret_param_redaction [mhFlood] chanFlood false false mhFlood
      (by decide) (by decide) (by decide) (by decide)⟩

/-- C9 counterexample: for a secret parameter mode whose internal name is not
its wire name, the redacted token wraps the internal name, not the wire name
the claim specifies. -/
theorem dump_redaction_counterexample :
    dumpTokens [mhFlood] chanFlood false false =
        [defaultVendor ++ ("flood-msgs".data), "<flood_msgs>".data] ∧
      ("<flood_msgs>".data) ≠
        '<' :: (insp_to_ircv3 ModeType.channel ("flood_msgs".data) ++ (">".data)) := by
  decide

/-- No character of the underscore-to-dash substitution image is a slash,
provided the input had none. -/
theorem slash_not_in_repl (x : Str) (hs : ('/' : Char) ∉ x) :
    ('/' : Char) ∉ x.map (replChar '_' '-') := by
  intro h
  obtain ⟨c, hc, hce⟩ := List.mem_map.mp h
  unfold replChar at hce
  by_cases h_ : c = '_'
  · simp [h_] at hce
  · rw [if_neg h_] at hce
    exact hs (hce ▸ hc)

/-- The vendor string does not occur in vendorString ++ t at any positive
position when t has no slash: position 21 of the occurrence would have to be a
slash drawn from t. -/
theorem vendor_no_late_occurrence (t : Str) (ht : ('/' : Char) ∉ t) (i : Nat) (hi : 0 < i) :
    defaultVendor.isPrefixOf ((defaultVendor ++ t).drop i) = false := by
  by_contra hcon
  rw [Bool.not_eq_false, List.isPrefixOf_iff_prefix] at hcon
  obtain ⟨u, hu⟩ := hcon
  have hv : defaultVendor.length = 22 := rfl
  have h21 : ((defaultVendor ++ t).drop i)[21]? = some '/' := by
    rw [← hu]
    rw [List.getElem?_append_left (by rw [hv]; omega)]
    rfl
  rw [List.getElem?_drop] at h21
  rw [List.getElem?_append_right (by rw [hv]; omega)] at h21
  exact ht (List.mem_iff_getElem?.mpr ⟨i + 21 - defaultVendor.length, h21⟩)

/-- rfind locates the vendor string at position 0 exactly in vendorString ++ t
when t has no slash. -/
theorem rfind_vendor_eq_zero (t : Str) (ht : ('/' : Char) ∉ t) :
    rfind (defaultVendor ++ t) defaultVendor = some 0 := by
  unfold rfind
  generalize (defaultVendor ++ t).length = n
  induction n with
  | zero =>
    unfold rfindAux
    rw [if_pos]
    exact List.isPrefixOf_iff_prefix.mpr (List.prefix_append _ _)
  | succ m ih =>
    unfold rfindAux
    rw [vendor_no_late_occurrence t ht (m + 1) (Nat.succ_pos m)]
    simpa using ih

/-- Round trip through the translation table, for registered internal names. -/
theorem roundtrip_registered (mt : ModeType) (x : Str) (hx : x ∈ (table mt).map Prod.fst) :
    ircv3_to_insp mt (insp_to_ircv3 mt x) = some x := by
  have h : ∀ p ∈ table mt, ircv3_to_insp mt (insp_to_ircv3 mt p.1) = some p.1 := by
    cases mt <;> decide
  obtain ⟨p, hp, hpe⟩ := List.mem_map.mp hx
  rw [← hpe]
  exact h p hp

/-- Round trip through the vendor fallback codec, for unregistered internal
names containing neither a dash nor a slash. -/
theorem roundtrip_vendored (mt : ModeType) (x : Str)
    (hx : ∀ p ∈ table mt, p.1 ≠ x) (hd : ('-' : Char) ∉ x) (hs : ('/' : Char) ∉ x) :
    ircv3_to_insp mt (insp_to_ircv3 mt x) = some x := by
  have hw : insp_to_ircv3 mt x = defaultVendor ++ x.map (replChar '_' '-') := by
    unfold insp_to_ircv3
    rw [List.find?_eq_none.mpr (fun p hp => by simpa using hx p hp)]
  have hlen : ∀ q ∈ table mt, q.2.length < defaultVendor.length := by
    cases mt <;> decide
  have h1 : (table mt).find? (fun p => p.2 == defaultVendor ++ x.map (replChar '_' '-')) = none := by
    rw [List.find?_eq_none]
    intro p hp
    simp only [beq_iff_eq, Bool.not_eq_true]
    intro hcontra
    have := hlen p hp
    rw [hcontra] at this
    simp [List.length_append] at this
  rw [hw]
  unfold ircv3_to_insp
  rw [h1, if_pos (rfind_vendor_eq_zero _ (slash_not_in_repl x hs)), List.drop_left, List.map_map]
  have hid : ∀ c ∈ x, (replChar '-' '_' ∘ replChar '_' '-') c = c := by
    intro c hc
    by_cases h_ : c = '_'
    · simp [replChar, h_]
    · have hcd : c ≠ '-' := fun hne => hd (hne ▸ hc)
      simp [replChar, if_neg h_, if_neg hcd]
  rw [List.map_congr_left hid]
  simp

/-- C3 (amended): translating an internal mode name to the wire and back
returns it unchanged for every name registered in the table, and for every
unregistered name containing neither a dash nor a slash; a dash in an
unregistered name is collapsed to an underscore by the fallback decode, and a
slash can defeat the vendor-string position check. -/
theorem name_roundtrip (mt : ModeType) (x : Str)
    (h : x ∈ (table mt).map Prod.fst ∨ (('-' : Char) ∉ x ∧ ('/' : Char) ∉ x)) :
    ircv3_to_insp mt (insp_to_ircv3 mt x) = some x := by
  by_cases hreg : x ∈ (table mt).map Prod.fst
  · exact roundtrip_registered mt x hreg
  · rcases h with h | ⟨hd, hs⟩
    · exact absurd h hreg
    · refine roundtrip_vendored mt x ?_ hd hs
      intro p hp hpe
      exact hreg (List.mem_map.mpr ⟨p, hp, hpe⟩)

/-- C3 witness: a concrete unregistered name round-trips via the fallback. -/
theorem name_roundtrip_witness :
    (("my_mode".data) ∈ (table ModeType.channel).map Prod.fst ∨
      (('-' : Char) ∉ ("my_mode".data) ∧ ('/' : Char) ∉ ("my_mode".data))) ∧
      ircv3_to_insp ModeType.channel (insp_to_ircv3 ModeType.channel ("my_mode".data)) =
        some ("my_mode".data) :=
  ⟨Or.inr (by decide), name_roundtrip ModeType.channel ("my_mode".data) (Or.inr (by decide))⟩

/-- C3 counterexample: an unregistered name containing a dash does not round
trip — the fallback decode turns its dash into an underscore. -/
theorem name_roundtrip_counterexample :
    ircv3_to_insp ModeType.channel (insp_to_ircv3 ModeType.channel ("auto-voice".data)) ≠
      some ("auto-voice".data) := by
  decide

end NamedModes
